import Mathlib

/-!
# Verification of the FitnessTracker storage layer

Shallow embedding of `src/server/storage.ts` (classes `MemStorage`,
`PostgresStorage` and `StorageAdapter`) together with proofs for the
specification claims about the Record Store, the Progress Aggregator and
the Storage Adapter.

Modelling conventions:
* JavaScript numbers that hold weights, dates (millisecond timestamps) and
  counts are modelled as `Int`; entity identifiers as `Nat`.
* A JavaScript `Map` is modelled as `JsMap`, an association list in
  insertion order: `Map.prototype.set` replaces in place when the key is
  present and appends otherwise, `delete` removes the keyed entry, and
  `[...map.values()]` iterates in insertion order.
* `Array.prototype.sort` with a numeric comparator is a stable sort
  (guaranteed by the ECMAScript standard); it is modelled by
  `List.insertionSort` with the reflexive relation `cmp a b ≤ 0`, which is
  exactly the stable sort for that comparator.
* JavaScript truthiness of the `x || y` idiom used by the source on strings
  (`""` is falsy), numbers (`0` is falsy) and `undefined`/`null` is modelled
  by the `jsOr…` helpers below.
* `async` methods never interleave in the source (each storage call runs to
  completion), so they are modelled as pure state-passing functions.
-/

namespace FitnessTracker

/-- One exercise set `{weight, reps}` (shared/schema.ts `ExerciseSet`). -/
structure SetEntry where
  weight : Int
  reps : Int
  deriving DecidableEq, Repr

/-- A `workouts` row (shared/schema.ts). `date` is a millisecond timestamp. -/
structure Workout where
  id : Nat
  name : String
  date : Int
  duration : Option Int
  notes : Option String
  deriving DecidableEq, Repr

/-- An `exercises` row (shared/schema.ts). -/
structure Exercise where
  id : Nat
  workoutId : Nat
  name : String
  sets : List SetEntry
  deriving DecidableEq, Repr

/-- A `goals` row (shared/schema.ts). -/
structure Goal where
  id : Nat
  name : String
  exerciseName : Option String
  targetWeight : Option Int
  targetReps : Option Int
  targetDate : Option Int
  isCompleted : Bool
  currentProgress : Option Int
  deriving DecidableEq, Repr

/-- An `exercise_types` row (shared/schema.ts). -/
structure ExerciseType where
  id : Nat
  name : String
  description : Option String
  notes : Option String
  category : Option String
  created : Int
  deriving DecidableEq, Repr

/-- A `workout_routines` row (shared/schema.ts). -/
structure WorkoutRoutine where
  id : Nat
  name : String
  description : Option String
  category : Option String
  created : Int
  deriving DecidableEq, Repr

/-- A `routine_exercises` row (shared/schema.ts). -/
structure RoutineExercise where
  id : Nat
  routineId : Nat
  exerciseTypeId : Nat
  orderIndex : Int
  defaultSets : Option Int
  defaultReps : Option Int
  notes : Option String
  deriving DecidableEq, Repr

/-- `InsertWorkout` (insert schema: a workout without its id). -/
structure InsertWorkout where
  name : String
  date : Int
  duration : Option Int
  notes : Option String
  deriving DecidableEq, Repr

/-- `InsertExercise`. -/
structure InsertExercise where
  workoutId : Nat
  name : String
  sets : List SetEntry
  deriving DecidableEq, Repr

/-- `InsertGoal`. Optional fields may be absent (`none`). -/
structure InsertGoal where
  name : String
  exerciseName : Option String
  targetWeight : Option Int
  targetReps : Option Int
  targetDate : Option Int
  isCompleted : Option Bool
  currentProgress : Option Int
  deriving DecidableEq, Repr

/-- `InsertExerciseType`. -/
structure InsertExerciseType where
  name : String
  description : Option String
  notes : Option String
  category : Option String
  deriving DecidableEq, Repr

/-- `InsertWorkoutRoutine`. -/
structure InsertWorkoutRoutine where
  name : String
  description : Option String
  category : Option String
  deriving DecidableEq, Repr

/-- `InsertRoutineExercise`. -/
structure InsertRoutineExercise where
  routineId : Nat
  exerciseTypeId : Nat
  orderIndex : Int
  defaultSets : Option Int
  defaultReps : Option Int
  notes : Option String
  deriving DecidableEq, Repr

/-- `Partial<InsertWorkout>`: a field is `none` when absent from the patch.
For nullable columns the inner `Option` is the stored nullable value. -/
structure WorkoutPatch where
  name : Option String
  date : Option Int
  duration : Option (Option Int)
  notes : Option (Option String)
  deriving DecidableEq, Repr

/-- `Partial<InsertExerciseType>`. -/
structure ExerciseTypePatch where
  name : Option String
  description : Option (Option String)
  notes : Option (Option String)
  category : Option (Option String)
  deriving DecidableEq, Repr

/-- The empty workout patch `{}`. -/
def WorkoutPatch.empty : WorkoutPatch :=
  { name := none, date := none, duration := none, notes := none }

/-! ## JavaScript `Map` -/

/-- A JavaScript `Map<number, α>`: entries in insertion order. -/
structure JsMap (α : Type) where
  entries : List (Nat × α)
  deriving DecidableEq, Repr

namespace JsMap

/-- The empty map (`new Map()`). -/
def empty : JsMap α := ⟨[]⟩

/-- `map.get(k)`. -/
def get (m : JsMap α) (k : Nat) : Option α :=
  (m.entries.find? (fun p => p.1 = k)).map (·.2)

/-- `map.set(k, v)`: replace in place when the key is present, append
otherwise. -/
def set (m : JsMap α) (k : Nat) (v : α) : JsMap α :=
  if m.entries.any (fun p => p.1 = k) then
    ⟨m.entries.map (fun p => if p.1 = k then (k, v) else p)⟩
  else
    ⟨m.entries ++ [(k, v)]⟩

/-- `map.delete(k)`: the updated map and whether the key was present. -/
def delete (m : JsMap α) (k : Nat) : JsMap α × Bool :=
  (⟨m.entries.filter (fun p => p.1 ≠ k)⟩, m.entries.any (fun p => p.1 = k))

/-- `[...map.values()]` in insertion order. -/
def values (m : JsMap α) : List α :=
  m.entries.map (·.2)

end JsMap

/-! ## JavaScript idioms -/

/-- `a || b` where `a : string | undefined` and `b : string`:
the empty string and `undefined` are falsy. -/
def jsOrStr (a : Option String) (b : String) : String :=
  match a with
  | some s => if s = "" then b else s
  | none => b

/-- `x || null` for `x : string | null | undefined`: `""` is falsy. -/
def jsOrNullStr (a : Option String) : Option String :=
  match a with
  | some s => if s = "" then none else some s
  | none => none

/-- `x || null` for `x : number | null | undefined`: `0` is falsy. -/
def jsOrNullInt (a : Option Int) : Option Int :=
  match a with
  | some n => if n = 0 then none else some n
  | none => none

/-- `x || b` for `x : number | null | undefined` and a numeric default `b`:
`0` is falsy. -/
def jsOrIntDefault (a : Option Int) (b : Int) : Int :=
  match a with
  | some n => if n = 0 then b else n
  | none => b

/-- The comparator relation of a JavaScript descending sort by a numeric key
(`(a, b) => keyB - keyA`, where a missing key makes the comparator return
`0`): `a` may stay before `b` exactly when the comparator is `≤ 0`. -/
def byKeyDescB (k : α → Option Int) (a b : α) : Bool :=
  match k a, k b with
  | some ka, some kb => decide (kb ≤ ka)
  | _, _ => true

/-- First element of a list attaining the maximal key (ties: the earliest
occurrence wins); `none` on the empty list. Missing keys default to `0`
(never exercised under the `isSome` hypotheses used below). -/
def firstMaxByKey (k : α → Option Int) : List α → Option α
  | [] => none
  | x :: xs =>
    match firstMaxByKey k xs with
    | none => some x
    | some m => if ((k x).getD 0) < ((k m).getD 0) then some m else some x

/-- A point of the progress history `{date, weight, reps}`. -/
structure HistoryPoint where
  date : Int
  weight : Int
  reps : Int
  deriving DecidableEq, Repr

/-- `[...exercise.sets].sort((a, b) => b.weight - a.weight)[0]`: the head of
the stable descending sort by weight. -/
def heaviestSet (sets : List SetEntry) : Option SetEntry :=
  (sets.insertionSort
    (fun a b => byKeyDescB (fun s => some s.weight) a b = true)).head?

/-- `history.slice(-limit)`: for `limit > 0` the last `min limit length`
entries; for `limit = 0` JavaScript's `slice(-0)` equals `slice(0)`, the
whole array. -/
def jsSliceNeg (l : List α) (limit : Nat) : List α :=
  if limit = 0 then l else l.drop (l.length - limit)

/-! ## Specification-side definitions

These follow the wording of the specification (§4.2 and §8) and are compared
with the source-derived functions in the refinement theorems below. -/

/-- Spec §4.2 step 3: "select the set with the maximum weight (tie-break:
first occurrence in the stored order wins)". -/
def specHeaviestSet (sets : List SetEntry) : Option SetEntry :=
  firstMaxByKey (fun s => some s.weight) sets

/-! ## MemStorage -/

/-- The in-memory Record Store `MemStorage`: one `JsMap` per entity type,
with the `…IdCounter` fields as the per-type auto-increment sources. -/
structure MemStorage where
  workouts : JsMap Workout
  exercises : JsMap Exercise
  goals : JsMap Goal
  exerciseTypes : JsMap ExerciseType
  workoutRoutines : JsMap WorkoutRoutine
  routineExercises : JsMap RoutineExercise
  workoutIdCounter : Nat
  exerciseIdCounter : Nat
  goalIdCounter : Nat
  exerciseTypeIdCounter : Nat
  routineIdCounter : Nat
  routineExerciseIdCounter : Nat
  deriving DecidableEq, Repr

namespace MemStorage

/-- `MemStorage.getWorkout`. -/
def getWorkout (st : MemStorage) (id : Nat) : Option Workout :=
  st.workouts.get id

/-- `MemStorage.createWorkout`. -/
def createWorkout (st : MemStorage) (w : InsertWorkout) : MemStorage × Workout :=
  let id := st.workoutIdCounter
  let newWorkout : Workout :=
    { id := id, name := w.name, date := w.date, duration := w.duration, notes := w.notes }
  ({ st with
      workouts := st.workouts.set id newWorkout,
      workoutIdCounter := id + 1 },
   newWorkout)

/-- `MemStorage.updateWorkout`: shallow merge, with
`name: workout.name || existingWorkout.name || "Unnamed Workout"`. -/
def updateWorkout (st : MemStorage) (id : Nat) (patch : WorkoutPatch) :
    MemStorage × Option Workout :=
  match st.workouts.get id with
  | none => (st, none)
  | some existing =>
    let updated : Workout :=
      { id := existing.id,
        name := jsOrStr patch.name (jsOrStr (some existing.name) "Unnamed Workout"),
        date := patch.date.getD existing.date,
        duration := patch.duration.getD existing.duration,
        notes := patch.notes.getD existing.notes }
    ({ st with workouts := st.workouts.set id updated }, some updated)

/-- `MemStorage.deleteWorkout`: first deletes every exercise whose
`workoutId` matches, then deletes the workout itself. -/
def deleteWorkout (st : MemStorage) (id : Nat) : MemStorage × Bool :=
  let exercisesToDelete := st.exercises.values.filter (fun e => e.workoutId = id)
  let exercises2 := exercisesToDelete.foldl (fun m e => (m.delete e.id).1) st.exercises
  let deleted := st.workouts.delete id
  ({ st with exercises := exercises2, workouts := deleted.1 }, deleted.2)

/-- `MemStorage.getExercises`. -/
def getExercises (st : MemStorage) (workoutId : Nat) : List Exercise :=
  st.exercises.values.filter (fun e => e.workoutId = workoutId)

/-- `MemStorage.createExercise`. -/
def createExercise (st : MemStorage) (e : InsertExercise) : MemStorage × Exercise :=
  let id := st.exerciseIdCounter
  let newExercise : Exercise :=
    { id := id, workoutId := e.workoutId, name := e.name, sets := e.sets }
  ({ st with
      exercises := st.exercises.set id newExercise,
      exerciseIdCounter := id + 1 },
   newExercise)

/-- `MemStorage.deleteExercise`. -/
def deleteExercise (st : MemStorage) (id : Nat) : MemStorage × Bool :=
  let deleted := st.exercises.delete id
  ({ st with exercises := deleted.1 }, deleted.2)

/-- `MemStorage.createExerciseType` (`created: new Date()` is passed in as
`now`). -/
def createExerciseType (st : MemStorage) (now : Int) (it : InsertExerciseType) :
    MemStorage × ExerciseType :=
  let id := st.exerciseTypeIdCounter
  let newType : ExerciseType :=
    { id := id,
      name := it.name,
      description := jsOrNullStr it.description,
      notes := jsOrNullStr it.notes,
      category := jsOrNullStr it.category,
      created := now }
  ({ st with
      exerciseTypes := st.exerciseTypes.set id newType,
      exerciseTypeIdCounter := id + 1 },
   newType)

/-- `MemStorage.createGoal`. (`goal.targetDate || null` acts on a `Date`
object, which is truthy even at epoch 0, so it only turns `undefined` into
`null` — unlike the numeric fields, where `0` is falsy.) -/
def createGoal (st : MemStorage) (g : InsertGoal) : MemStorage × Goal :=
  let id := st.goalIdCounter
  let newGoal : Goal :=
    { id := id,
      name := g.name,
      exerciseName := jsOrNullStr g.exerciseName,
      targetWeight := jsOrNullInt g.targetWeight,
      targetReps := jsOrNullInt g.targetReps,
      targetDate := g.targetDate,
      isCompleted := g.isCompleted.getD false,
      currentProgress := jsOrNullInt g.currentProgress }
  ({ st with goals := st.goals.set id newGoal, goalIdCounter := id + 1 }, newGoal)

/-- `MemStorage.deleteGoal`. -/
def deleteGoal (st : MemStorage) (id : Nat) : MemStorage × Bool :=
  let deleted := st.goals.delete id
  ({ st with goals := deleted.1 }, deleted.2)

/-- `MemStorage.deleteExerciseType`. -/
def deleteExerciseType (st : MemStorage) (id : Nat) : MemStorage × Bool :=
  let deleted := st.exerciseTypes.delete id
  ({ st with exerciseTypes := deleted.1 }, deleted.2)

/-- `MemStorage.createWorkoutRoutine` (`created: new Date()` passed as
`now`). -/
def createWorkoutRoutine (st : MemStorage) (now : Int) (r : InsertWorkoutRoutine) :
    MemStorage × WorkoutRoutine :=
  let id := st.routineIdCounter
  let newRoutine : WorkoutRoutine :=
    { id := id,
      name := r.name,
      description := jsOrNullStr r.description,
      category := jsOrNullStr r.category,
      created := now }
  ({ st with
      workoutRoutines := st.workoutRoutines.set id newRoutine,
      routineIdCounter := id + 1 },
   newRoutine)

/-- `MemStorage.deleteWorkoutRoutine`: also deletes the associated routine
exercises. -/
def deleteWorkoutRoutine (st : MemStorage) (id : Nat) : MemStorage × Bool :=
  let routineExercisesToDelete :=
    st.routineExercises.values.filter (fun re => re.routineId = id)
  let routineExercises2 :=
    routineExercisesToDelete.foldl (fun m re => (m.delete re.id).1) st.routineExercises
  let deleted := st.workoutRoutines.delete id
  ({ st with routineExercises := routineExercises2, workoutRoutines := deleted.1 },
   deleted.2)

/-- `MemStorage.createRoutineExercise`
(`defaultSets: routineExercise.defaultSets || 3`). -/
def createRoutineExercise (st : MemStorage) (re : InsertRoutineExercise) :
    MemStorage × RoutineExercise :=
  let id := st.routineExerciseIdCounter
  let newRoutineExercise : RoutineExercise :=
    { id := id,
      routineId := re.routineId,
      exerciseTypeId := re.exerciseTypeId,
      orderIndex := re.orderIndex,
      defaultSets := some (jsOrIntDefault re.defaultSets 3),
      defaultReps := jsOrNullInt re.defaultReps,
      notes := jsOrNullStr re.notes }
  ({ st with
      routineExercises := st.routineExercises.set id newRoutineExercise,
      routineExerciseIdCounter := id + 1 },
   newRoutineExercise)

/-- `MemStorage.deleteRoutineExercise`. -/
def deleteRoutineExercise (st : MemStorage) (id : Nat) : MemStorage × Bool :=
  let deleted := st.routineExercises.delete id
  ({ st with routineExercises := deleted.1 }, deleted.2)

/-- The rename fix-up inside `MemStorage.updateExerciseType`: every exercise
whose `name` equals the old name and every goal whose `exerciseName` equals
the old name is `set` in place with the new name. -/
def renameFixup (st : MemStorage) (oldName newName : String) : MemStorage :=
  { st with
    exercises :=
      ⟨st.exercises.entries.map (fun p =>
        if p.2.name = oldName then (p.1, { p.2 with name := newName }) else p)⟩,
    goals :=
      ⟨st.goals.entries.map (fun p =>
        if p.2.exerciseName = some oldName then
          (p.1, { p.2 with exerciseName := some newName })
        else p)⟩ }

/-- `MemStorage.updateExerciseType`: the fix-up runs only under the source's
guard `exerciseType.name && exerciseType.name !== existingExerciseType.name`
(`""` is falsy), then the patch is shallow-merged over the existing row. -/
def updateExerciseType (st : MemStorage) (id : Nat) (patch : ExerciseTypePatch) :
    MemStorage × Option ExerciseType :=
  match st.exerciseTypes.get id with
  | none => (st, none)
  | some existing =>
    let st1 :=
      match patch.name with
      | some n =>
        if n = "" then st
        else if n = existing.name then st
        else renameFixup st existing.name n
      | none => st
    let updated : ExerciseType :=
      { id := existing.id,
        name := patch.name.getD existing.name,
        description := patch.description.getD existing.description,
        notes := patch.notes.getD existing.notes,
        category := patch.category.getD existing.category,
        created := existing.created }
    ({ st1 with exerciseTypes := st1.exerciseTypes.set id updated }, some updated)

/-- `MemStorage.getExerciseHistory`. -/
def getExerciseHistory (st : MemStorage) (exerciseName : String) : List HistoryPoint :=
  let allExercises := st.exercises.values.filter (fun e => e.name = exerciseName)
  let points := allExercises.flatMap (fun e =>
    match st.workouts.get e.workoutId with
    | none => []
    | some w =>
      match heaviestSet e.sets with
      | none => []
      | some h => [{ date := w.date, weight := h.weight, reps := h.reps }])
  points.insertionSort (fun a b => a.date ≤ b.date)

/-- `MemStorage.getExerciseSets`. -/
def getExerciseSets (st : MemStorage) (exerciseName : String) (limit : Nat) :
    List HistoryPoint :=
  jsSliceNeg (st.getExerciseHistory exerciseName) limit

/-- `MemStorage.getLatestExerciseSet`. The sort comparator dereferences the
owning workouts and returns `0` when either is missing; it runs on the list
already filtered to exercises whose workout exists. -/
def getLatestExerciseSet (st : MemStorage) (exerciseName : String) :
    Option SetEntry :=
  let allExercises := st.exercises.values.filter (fun e => e.name = exerciseName)
  if allExercises.isEmpty then none
  else
    let withWorkout := allExercises.filter (fun e => (st.workouts.get e.workoutId).isSome)
    let sorted := withWorkout.insertionSort
      (fun a b =>
        byKeyDescB (fun e => (st.workouts.get e.workoutId).map (·.date)) a b = true)
    match sorted.head? with
    | none => none
    | some latest =>
      match heaviestSet latest.sets with
      | none => none
      | some h => some { weight := h.weight, reps := h.reps }

/-- The `MemStorage` constructor: fresh maps, all counters at `1`, then the
three sample exercise types and the sample goal are created. `now` stands
for `new Date()` at construction time. -/
def init (now : Int) : MemStorage :=
  let st0 : MemStorage :=
    { workouts := JsMap.empty,
      exercises := JsMap.empty,
      goals := JsMap.empty,
      exerciseTypes := JsMap.empty,
      workoutRoutines := JsMap.empty,
      routineExercises := JsMap.empty,
      workoutIdCounter := 1,
      exerciseIdCounter := 1,
      goalIdCounter := 1,
      exerciseTypeIdCounter := 1,
      routineIdCounter := 1,
      routineExerciseIdCounter := 1 }
  let st1 := (st0.createExerciseType now
    { name := "Bench Press",
      description := some "A classic chest exercise",
      notes := some "Keep shoulders back and down",
      category := some "Chest" }).1
  let st2 := (st1.createExerciseType now
    { name := "Squat",
      description := some "The king of leg exercises",
      notes := some "Drive through heels",
      category := some "Legs" }).1
  let st3 := (st2.createExerciseType now
    { name := "Deadlift",
      description := some "A full-body pull exercise",
      notes := some "Maintain neutral spine",
      category := some "Back" }).1
  (st3.createGoal
    { name := "Weekly Workouts",
      exerciseName := none,
      targetWeight := none,
      targetReps := some 5,
      targetDate := none,
      isCompleted := some false,
      currentProgress := some 2 }).1

end MemStorage

/-! ## PostgresStorage

The durable store is modelled relationally: each table is a list of rows in
storage order (`serial` primary keys are assigned from the `…IdSeq`
counters, so storage order is insertion order), `select … where eq` is
`filter`, `limit 1` is `find?`, `update … set` merges the provided columns
into every matching row, and `delete … where` removes the matching rows.
`ORDER BY col DESC` is modelled as a stable descending sort (SQL leaves the
order of ties unspecified; every use below orders by a unique column). -/

/-- The durable (PostgreSQL) database state. -/
structure PgDB where
  workouts : List Workout
  exercises : List Exercise
  goals : List Goal
  exerciseTypes : List ExerciseType
  workoutIdSeq : Nat
  exerciseIdSeq : Nat
  goalIdSeq : Nat
  exerciseTypeIdSeq : Nat
  deriving DecidableEq, Repr

/-- `Array.from(new Set(xs))`: deduplicate keeping first occurrences. -/
def jsSetDedup (l : List Nat) : List Nat :=
  l.foldl (fun acc x => if x ∈ acc then acc else acc ++ [x]) []

/-- `new Map(rows.map(r => [r.id, r])).get(k)`: with duplicate keys the last
entry wins, so lookup is a reverse search. -/
def rowMapGet (rows : List Workout) (k : Nat) : Option Workout :=
  rows.reverse.find? (fun w => w.id = k)

namespace PostgresStorage

/-- `PostgresStorage.getWorkout`. -/
def getWorkout (db : PgDB) (id : Nat) : Option Workout :=
  db.workouts.find? (fun w => w.id = id)

/-- `PostgresStorage.createWorkout` (serial id assignment). -/
def createWorkout (db : PgDB) (w : InsertWorkout) : PgDB × Workout :=
  let id := db.workoutIdSeq
  let row : Workout :=
    { id := id, name := w.name, date := w.date, duration := w.duration, notes := w.notes }
  ({ db with workouts := db.workouts ++ [row], workoutIdSeq := id + 1 }, row)

/-- SQL `UPDATE workouts SET …`: merge the provided columns over a row. -/
def mergeWorkout (patch : WorkoutPatch) (w : Workout) : Workout :=
  { id := w.id,
    name := patch.name.getD w.name,
    date := patch.date.getD w.date,
    duration := patch.duration.getD w.duration,
    notes := patch.notes.getD w.notes }

/-- `PostgresStorage.updateWorkout`: when `name` is absent the existing name
is first copied into the patch; no emptiness guard. -/
def updateWorkout (db : PgDB) (id : Nat) (patch : WorkoutPatch) :
    PgDB × Option Workout :=
  let patch2 :=
    match patch.name with
    | none =>
      match getWorkout db id with
      | some existing => { patch with name := some existing.name }
      | none => patch
    | some _ => patch
  ({ db with
      workouts := db.workouts.map (fun w => if w.id = id then mergeWorkout patch2 w else w) },
   ((db.workouts.filter (fun w => w.id = id)).map (mergeWorkout patch2)).head?)

/-- `PostgresStorage.deleteWorkout`: deletes the matching exercises, then the
workout; returns whether a workout row was removed. -/
def deleteWorkout (db : PgDB) (id : Nat) : PgDB × Bool :=
  ({ db with
      exercises := db.exercises.filter (fun e => e.workoutId ≠ id),
      workouts := db.workouts.filter (fun w => w.id ≠ id) },
   db.workouts.any (fun w => w.id = id))

/-- `PostgresStorage.getExercises`. -/
def getExercises (db : PgDB) (workoutId : Nat) : List Exercise :=
  db.exercises.filter (fun e => e.workoutId = workoutId)

/-- `PostgresStorage.createExercise`. -/
def createExercise (db : PgDB) (e : InsertExercise) : PgDB × Exercise :=
  let id := db.exerciseIdSeq
  let row : Exercise :=
    { id := id, workoutId := e.workoutId, name := e.name, sets := e.sets }
  ({ db with exercises := db.exercises ++ [row], exerciseIdSeq := id + 1 }, row)

/-- Merge an `ExerciseTypePatch` over a row (SQL `SET` of provided columns). -/
def mergeExerciseType (patch : ExerciseTypePatch) (t : ExerciseType) : ExerciseType :=
  { id := t.id,
    name := patch.name.getD t.name,
    description := patch.description.getD t.description,
    notes := patch.notes.getD t.notes,
    category := patch.category.getD t.category,
    created := t.created }

/-- `PostgresStorage.updateExerciseType`: under the truthiness guard
`exerciseType.name && exerciseType.name !== originalExerciseType.name`,
every exercise row whose `name` equals the old name and every goal row whose
`exerciseName` equals the old name is updated, then the type row itself. -/
def updateExerciseType (db : PgDB) (id : Nat) (patch : ExerciseTypePatch) :
    PgDB × Option ExerciseType :=
  match db.exerciseTypes.find? (fun t => t.id = id) with
  | none => (db, none)
  | some original =>
    let db1 :=
      match patch.name with
      | some n =>
        if n = "" then db
        else if n = original.name then db
        else
          { db with
            exercises := db.exercises.map (fun (e : Exercise) =>
              if e.name = original.name then { e with name := n } else e),
            goals := db.goals.map (fun (g : Goal) =>
              if g.exerciseName = some original.name then
                { g with exerciseName := some n }
              else g) }
      | none => db
    ({ db1 with
        exerciseTypes := db1.exerciseTypes.map (fun (t : ExerciseType) =>
          if t.id = id then mergeExerciseType patch t else t) },
     ((db1.exerciseTypes.filter (fun t => t.id = id)).map (mergeExerciseType patch)).head?)

/-- The synthetic sample history generated by
`PostgresStorage.getExerciseHistory` when no exercise row matches: six
points, every 15 days back from `today`, weights rising from 45 in steps of
5 (10 less for names other than "Bench Press"), 8 reps, oldest first. -/
def sampleHistory (today : Int) (exerciseName : String) : List HistoryPoint :=
  ((List.range 6).map (fun (i : Nat) =>
    ({ date := today - (i : Int) * 15 * 86400000,
       weight := if exerciseName = "Bench Press" then 45 + (i : Int) * 5
                 else 45 + (i : Int) * 5 - 10,
       reps := 8 } : HistoryPoint))).reverse

/-- `PostgresStorage.getExerciseHistory`. `today` stands for `new Date()`;
the 15-day steps of the sample branch are modelled in milliseconds. -/
def getExerciseHistory (today : Int) (db : PgDB) (exerciseName : String) :
    List HistoryPoint :=
  let allExercises := db.exercises.filter (fun e => e.name = exerciseName)
  let workoutIds := jsSetDedup (allExercises.map (fun e => e.workoutId))
  if workoutIds.isEmpty then
    sampleHistory today exerciseName
  else
    let workoutsResult := db.workouts.filter (fun w => w.id ∈ workoutIds)
    let points := allExercises.flatMap (fun e =>
      match rowMapGet workoutsResult e.workoutId with
      | none => []
      | some w =>
        if e.sets.isEmpty then []
        else
          match heaviestSet e.sets with
          | none => []
          | some h => [{ date := w.date, weight := h.weight, reps := h.reps }])
    points.insertionSort (fun a b => a.date ≤ b.date)

/-- `PostgresStorage.getExerciseSets`. -/
def getExerciseSets (today : Int) (db : PgDB) (exerciseName : String) (limit : Nat) :
    List HistoryPoint :=
  jsSliceNeg (getExerciseHistory today db exerciseName) limit

/-- `PostgresStorage.getLatestExerciseSet`: `ORDER BY id DESC LIMIT 1`
("Assumes newer exercises have higher IDs" in the source) — the owning
workout's date is never consulted. -/
def getLatestExerciseSet (db : PgDB) (exerciseName : String) : Option SetEntry :=
  let latest := ((db.exercises.filter (fun e => e.name = exerciseName)).insertionSort
    (fun a b => byKeyDescB (fun e => some (e.id : Int)) a b = true)).head?
  match latest with
  | none => none
  | some e =>
    if e.sets.isEmpty then none
    else
      match heaviestSet e.sets with
      | none => none
      | some h => some { weight := h.weight, reps := h.reps }

end PostgresStorage

/-! ## Progress Aggregator, specification side -/

/-- Spec §4.2 for the in-memory store: match exercises by exact name, join
to the owning workout (skip orphans), reduce each set list to its first
maximum-weight set (skip empty set lists), emit `{date, weight, reps}` and
sort ascending by date. -/
def specExerciseHistoryMem (st : MemStorage) (exerciseName : String) :
    List HistoryPoint :=
  ((st.exercises.values.filter (fun e => e.name = exerciseName)).filterMap (fun e =>
    (st.workouts.get e.workoutId).bind (fun w =>
      (specHeaviestSet e.sets).map (fun h =>
        ({ date := w.date, weight := h.weight, reps := h.reps } : HistoryPoint))))
  ).insertionSort (fun a b => a.date ≤ b.date)

/-- Spec §4.2 for the durable store: the same aggregation over the
relational tables, the owning workout looked up by its id. -/
def specExerciseHistoryPg (db : PgDB) (exerciseName : String) :
    List HistoryPoint :=
  ((db.exercises.filter (fun e => e.name = exerciseName)).filterMap (fun e =>
    (db.workouts.find? (fun w => w.id = e.workoutId)).bind (fun w =>
      (specHeaviestSet e.sets).map (fun h =>
        ({ date := w.date, weight := h.weight, reps := h.reps } : HistoryPoint))))
  ).insertionSort (fun a b => a.date ≤ b.date)

/-- Spec §4.2 `getLatestExerciseSet` for the in-memory store: among the
matching exercises whose owning workout exists, the one with the most
recent workout date (first occurrence on ties), reduced to its first
maximum-weight set. -/
def specLatestMem (st : MemStorage) (exerciseName : String) : Option SetEntry :=
  let withWorkout := (st.exercises.values.filter (fun e => e.name = exerciseName)).filter
    (fun e => (st.workouts.get e.workoutId).isSome)
  (firstMaxByKey (fun e => (st.workouts.get e.workoutId).map (·.date)) withWorkout).bind
    (fun latest => (specHeaviestSet latest.sets).map
      (fun h => ({ weight := h.weight, reps := h.reps } : SetEntry)))

/-- Claim C4's reading of `getLatestExerciseSet` for the durable store:
select by the most recent owning-workout date (the source instead selects
by greatest exercise id). -/
def specLatestByDatePg (db : PgDB) (exerciseName : String) : Option SetEntry :=
  let withWorkout := (db.exercises.filter (fun e => e.name = exerciseName)).filter
    (fun e => (db.workouts.find? (fun w => w.id = e.workoutId)).isSome)
  (firstMaxByKey
      (fun e => (db.workouts.find? (fun w => w.id = e.workoutId)).map (·.date))
      withWorkout).bind
    (fun latest => (specHeaviestSet latest.sets).map
      (fun h => ({ weight := h.weight, reps := h.reps } : SetEntry)))

/-- What the durable store actually selects: the matching exercise with the
greatest id. -/
def specLatestByIdPg (db : PgDB) (exerciseName : String) : Option SetEntry :=
  (firstMaxByKey (fun e => some ((e.id : Int)))
      (db.exercises.filter (fun e => e.name = exerciseName))).bind
    (fun latest =>
      if latest.sets.isEmpty then none
      else (specHeaviestSet latest.sets).map
        (fun h => ({ weight := h.weight, reps := h.reps } : SetEntry)))

/-- Spec §4.2: "the last `limit` entries (most recent) of this same
sequence". -/
def specLastN (limit : Nat) (l : List α) : List α :=
  l.drop (l.length - limit)

/-- The in-memory update's name rule, as the spec words it: the patched
name when provided and non-empty, otherwise the previous name, with
"Unnamed Workout" as the last resort when the previous name is empty too. -/
def specMergedName (patchName : Option String) (prevName : String) : String :=
  match patchName with
  | some n =>
    if n = "" then (if prevName = "" then "Unnamed Workout" else prevName) else n
  | none => if prevName = "" then "Unnamed Workout" else prevName

/-- Spec §4.1 `update` for the in-memory store: shallow merge — a provided
field replaces, an absent field is preserved — with the name rule above. -/
def specMergeWorkoutMem (patch : WorkoutPatch) (w : Workout) : Workout :=
  { id := w.id,
    name := specMergedName patch.name w.name,
    date := patch.date.getD w.date,
    duration := patch.duration.getD w.duration,
    notes := patch.notes.getD w.notes }

/-- Shallow merge as the durable store performs it: a provided field
replaces (the name verbatim, even when empty), an absent field is
preserved. -/
def specMergeWorkoutPg (patch : WorkoutPatch) (w : Workout) : Workout :=
  { id := w.id,
    name := patch.name.getD w.name,
    date := patch.date.getD w.date,
    duration := patch.duration.getD w.duration,
    notes := patch.notes.getD w.notes }

/-! ## Storage Adapter -/

/-- Which backing store served an operation. -/
inductive Backend where
  | pg
  | mem
  deriving DecidableEq, Repr

namespace StorageAdapter

/-- `StorageAdapter.delegate`: in durable mode attempt the Postgres method;
on any error flip `usePostgres` to `false` forever and serve the same
operation from the in-memory store. Returns the result and the new
`usePostgres` flag. -/
def delegate {T : Type} (usePostgres : Bool) (postgresMethod : Except String T)
    (memMethod : T) : T × Bool :=
  if usePostgres then
    match postgresMethod with
    | Except.ok v => (v, usePostgres)
    | Except.error _ => (memMethod, false)
  else
    (memMethod, usePostgres)

/-- A process-lifetime trace of the adapter: one entry per operation, given
for each operation whether its durable-store attempt would fail. Each trace
entry records whether the durable store was attempted (`usePostgres` at the
time) and which backend produced the result. -/
def run (usePostgres : Bool) : List Bool → List (Bool × Backend)
  | [] => []
  | fails :: rest =>
    let r := delegate usePostgres
      (if fails then Except.error "PostgreSQL error" else Except.ok Backend.pg)
      Backend.mem
    (usePostgres, r.1) :: run r.2 rest

end StorageAdapter

/-! ## Operation sequences over MemStorage (for the id-monotonicity claim) -/

/-- Entity kinds of the Record Store covered by the embedding. -/
inductive EntKind where
  | workout
  | exercise
  | goal
  | exerciseType
  | workoutRoutine
  | routineExercise
  deriving DecidableEq, Repr

/-- A create or delete operation against `MemStorage`. -/
inductive MemOp where
  | createWorkout (iw : InsertWorkout)
  | deleteWorkout (id : Nat)
  | createExercise (ie : InsertExercise)
  | deleteExercise (id : Nat)
  | createGoal (ig : InsertGoal)
  | deleteGoal (id : Nat)
  | createExerciseType (now : Int) (it : InsertExerciseType)
  | deleteExerciseType (id : Nat)
  | createWorkoutRoutine (now : Int) (ir : InsertWorkoutRoutine)
  | deleteWorkoutRoutine (id : Nat)
  | createRoutineExercise (ire : InsertRoutineExercise)
  | deleteRoutineExercise (id : Nat)
  deriving DecidableEq, Repr

/-- The entity type an operation touches. -/
def MemOp.kind : MemOp → EntKind
  | .createWorkout _ => .workout
  | .deleteWorkout _ => .workout
  | .createExercise _ => .exercise
  | .deleteExercise _ => .exercise
  | .createGoal _ => .goal
  | .deleteGoal _ => .goal
  | .createExerciseType _ _ => .exerciseType
  | .deleteExerciseType _ => .exerciseType
  | .createWorkoutRoutine _ _ => .workoutRoutine
  | .deleteWorkoutRoutine _ => .workoutRoutine
  | .createRoutineExercise _ => .routineExercise
  | .deleteRoutineExercise _ => .routineExercise

/-- The id counter of an entity type. -/
def MemStorage.counterOf (st : MemStorage) : EntKind → Nat
  | .workout => st.workoutIdCounter
  | .exercise => st.exerciseIdCounter
  | .goal => st.goalIdCounter
  | .exerciseType => st.exerciseTypeIdCounter
  | .workoutRoutine => st.routineIdCounter
  | .routineExercise => st.routineExerciseIdCounter

/-- Apply one operation; creates return the assigned id. -/
def MemStorage.applyOp (st : MemStorage) : MemOp → MemStorage × Option Nat
  | .createWorkout iw => let r := st.createWorkout iw; (r.1, some r.2.id)
  | .deleteWorkout id => ((st.deleteWorkout id).1, none)
  | .createExercise ie => let r := st.createExercise ie; (r.1, some r.2.id)
  | .deleteExercise id => ((st.deleteExercise id).1, none)
  | .createGoal ig => let r := st.createGoal ig; (r.1, some r.2.id)
  | .deleteGoal id => ((st.deleteGoal id).1, none)
  | .createExerciseType now it => let r := st.createExerciseType now it; (r.1, some r.2.id)
  | .deleteExerciseType id => ((st.deleteExerciseType id).1, none)
  | .createWorkoutRoutine now ir => let r := st.createWorkoutRoutine now ir; (r.1, some r.2.id)
  | .deleteWorkoutRoutine id => ((st.deleteWorkoutRoutine id).1, none)
  | .createRoutineExercise ire => let r := st.createRoutineExercise ire; (r.1, some r.2.id)
  | .deleteRoutineExercise id => ((st.deleteRoutineExercise id).1, none)

/-- Run a sequence of operations, recording each operation with the id it
returned (if it was a create). -/
def MemStorage.runTrace (st : MemStorage) : List MemOp → List (MemOp × Option Nat)
  | [] => []
  | op :: ops =>
    let r := st.applyOp op
    (op, r.2) :: r.1.runTrace ops

/-! ## Concrete states used by counterexamples and witnesses -/

/-- A durable store with one exercise row, used to probe the synthetic
sample-data branch with a non-matching name. -/
def dbOneBench : PgDB :=
  { workouts := [{ id := 1, name := "Push Day", date := 1, duration := none, notes := none }],
    exercises := [{ id := 1, workoutId := 1, name := "Bench Press",
                    sets := [{ weight := 100, reps := 5 }] }],
    goals := [],
    exerciseTypes := [],
    workoutIdSeq := 2, exerciseIdSeq := 2, goalIdSeq := 1, exerciseTypeIdSeq := 1 }

/-- A completely empty durable store. -/
def dbEmpty : PgDB :=
  { workouts := [], exercises := [], goals := [], exerciseTypes := [],
    workoutIdSeq := 1, exerciseIdSeq := 1, goalIdSeq := 1, exerciseTypeIdSeq := 1 }

/-- A durable store where the newest exercise row (highest id) belongs to an
older workout: workout 1 is dated 100, workout 2 is dated 50. -/
def dbLatest : PgDB :=
  { workouts := [{ id := 1, name := "A", date := 100, duration := none, notes := none },
                 { id := 2, name := "B", date := 50, duration := none, notes := none }],
    exercises := [{ id := 1, workoutId := 1, name := "Bench Press",
                    sets := [{ weight := 100, reps := 5 }] },
                  { id := 2, workoutId := 2, name := "Bench Press",
                    sets := [{ weight := 80, reps := 5 }] }],
    goals := [],
    exerciseTypes := [],
    workoutIdSeq := 3, exerciseIdSeq := 3, goalIdSeq := 1, exerciseTypeIdSeq := 1 }

/-- An in-memory store with one exercise type named "Bench Press" and one
exercise and goal referencing it. -/
def stRename : MemStorage :=
  { workouts := ⟨[]⟩,
    exercises := ⟨[(1, { id := 1, workoutId := 1, name := "Bench Press",
                         sets := [{ weight := 100, reps := 5 }] })]⟩,
    goals := ⟨[(1, { id := 1, name := "G", exerciseName := some "Bench Press",
                     targetWeight := none, targetReps := none, targetDate := none,
                     isCompleted := false, currentProgress := none })]⟩,
    exerciseTypes := ⟨[(1, { id := 1, name := "Bench Press", description := none,
                             notes := none, category := none, created := 0 })]⟩,
    workoutRoutines := ⟨[]⟩, routineExercises := ⟨[]⟩,
    workoutIdCounter := 1, exerciseIdCounter := 2,
    goalIdCounter := 2, exerciseTypeIdCounter := 2,
    routineIdCounter := 1, routineExerciseIdCounter := 1 }

/-- A durable store with one exercise type, exercise and goal all referring
to "Bench Press". -/
def dbRename : PgDB :=
  { workouts := [],
    exercises := [{ id := 1, workoutId := 1, name := "Bench Press",
                    sets := [{ weight := 100, reps := 5 }] }],
    goals := [{ id := 1, name := "G", exerciseName := some "Bench Press",
                targetWeight := none, targetReps := none, targetDate := none,
                isCompleted := false, currentProgress := none }],
    exerciseTypes := [{ id := 1, name := "Bench Press", description := none,
                        notes := none, category := none, created := 0 }],
    workoutIdSeq := 1, exerciseIdSeq := 2, goalIdSeq := 2, exerciseTypeIdSeq := 2 }

/-- A durable store with a single workout named "Leg Day". -/
def dbLegDay : PgDB :=
  { workouts := [{ id := 1, name := "Leg Day", date := 5, duration := none, notes := none }],
    exercises := [], goals := [], exerciseTypes := [],
    workoutIdSeq := 2, exerciseIdSeq := 1, goalIdSeq := 1, exerciseTypeIdSeq := 1 }

/-- An in-memory store holding the spec §8 example: "Bench Press" with sets
`[{w:100,r:5}]` on date 1 and `[{w:110,r:5},{w:90,r:8}]` on date 8. -/
def stBench : MemStorage :=
  { workouts := ⟨[(1, { id := 1, name := "W1", date := 1, duration := none, notes := none }),
                  (2, { id := 2, name := "W2", date := 8, duration := none, notes := none })]⟩,
    exercises := ⟨[(1, { id := 1, workoutId := 1, name := "Bench Press",
                         sets := [{ weight := 100, reps := 5 }] }),
                   (2, { id := 2, workoutId := 2, name := "Bench Press",
                         sets := [{ weight := 110, reps := 5 },
                                  { weight := 90, reps := 8 }] })]⟩,
    goals := ⟨[]⟩,
    exerciseTypes := ⟨[]⟩,
    workoutRoutines := ⟨[]⟩, routineExercises := ⟨[]⟩,
    workoutIdCounter := 3, exerciseIdCounter := 3,
    goalIdCounter := 1, exerciseTypeIdCounter := 1,
    routineIdCounter := 1, routineExerciseIdCounter := 1 }

/-! ## Helper lemmas -/

/-- The head of a stable descending sort by key is the first element with
the maximal key. This connects the source's `[...xs].sort((a, b) =>
keyB - keyA)[0]` idiom to the specification's "maximum, first occurrence
wins". -/
theorem head?_insertionSort_byKeyDesc (k : α → Option Int) (l : List α)
    (h : ∀ x ∈ l, (k x).isSome) :
    (l.insertionSort (fun a b => byKeyDescB k a b = true)).head? =
      firstMaxByKey k l := by
  induction l with
  | nil => rfl
  | cons x xs ih =>
    have hx : (k x).isSome := h x (List.mem_cons_self x xs)
    have hxs : ∀ y ∈ xs, (k y).isSome := fun y hy => h y (List.mem_cons_of_mem _ hy)
    obtain ⟨kx, hkx⟩ := Option.isSome_iff_exists.1 hx
    rw [List.insertionSort]
    cases hs : List.insertionSort (fun a b => byKeyDescB k a b = true) xs with
    | nil =>
      have hlen := List.length_insertionSort (fun a b => byKeyDescB k a b = true) xs
      rw [hs] at hlen
      have hxs0 : xs = [] := List.length_eq_zero.1 hlen.symm
      subst hxs0
      simp [List.orderedInsert, firstMaxByKey]
    | cons m rest =>
      have hm : m ∈ xs := by
        have : m ∈ List.insertionSort (fun a b => byKeyDescB k a b = true) xs := by
          rw [hs]; exact List.mem_cons_self m rest
        exact (List.mem_insertionSort _).1 this
      obtain ⟨km, hkm⟩ := Option.isSome_iff_exists.1 (hxs m hm)
      have ihs : firstMaxByKey k xs = some m := by
        have := ih hxs
        rw [hs] at this
        exact this.symm
      rw [List.orderedInsert]
      simp only [firstMaxByKey, ihs, hkx, hkm, byKeyDescB, Option.getD_some]
      by_cases hcmp : km ≤ kx
      · rw [if_pos (by simp [hcmp]), if_neg (by omega)]
        rfl
      · rw [if_neg (by simp [hcmp]), if_pos (by omega)]
        rfl

/-- The JavaScript stable descending sort by weight selects the first
maximum-weight set, as the specification words it. -/
theorem heaviestSet_eq_spec (sets : List SetEntry) :
    heaviestSet sets = specHeaviestSet sets :=
  head?_insertionSort_byKeyDesc _ sets (fun _ _ => rfl)

theorem flatMap_congr_mem (l : List α) (f g : α → List β)
    (h : ∀ a ∈ l, f a = g a) : l.flatMap f = l.flatMap g := by
  induction l with
  | nil => rfl
  | cons x xs ih =>
    rw [List.flatMap_cons, List.flatMap_cons, h x (List.mem_cons_self x xs),
      ih (fun a ha => h a (List.mem_cons_of_mem _ ha))]

/-- Filtering by a weaker predicate does not change the first match. -/
theorem find?_filter_of_imp (l : List α) (p q : α → Bool)
    (h : ∀ x, q x = true → p x = true) :
    (l.filter p).find? q = l.find? q := by
  induction l with
  | nil => rfl
  | cons x xs ih =>
    rw [List.filter_cons]
    cases hp : p x with
    | true =>
      rw [if_pos rfl, List.find?_cons, List.find?_cons]
      cases hq : q x <;> simp [ih]
    | false =>
      have hq : q x = false := by
        cases hqx : q x
        · rfl
        · exact absurd (h x hqx) (by simp [hp])
      rw [if_neg (by simp), ih, List.find?_cons, hq]

/-- With pairwise distinct ids, the last match equals the first match. -/
theorem reverse_find?_of_nodup (l : List Workout)
    (hnd : (l.map (fun w => w.id)).Nodup) (k : Nat) :
    l.reverse.find? (fun w => w.id = k) = l.find? (fun w => w.id = k) := by
  induction l with
  | nil => rfl
  | cons w ws ih =>
    rw [List.map_cons, List.nodup_cons] at hnd
    by_cases hwk : w.id = k
    · have hnone : ws.reverse.find? (fun x => x.id = k) = none := by
        rw [List.find?_eq_none]
        intro x hx hxk
        exact hnd.1 (List.mem_map.2 ⟨x, List.mem_reverse.1 hx, by
          have := of_decide_eq_true hxk
          omega⟩)
      rw [List.reverse_cons, List.find?_append, hnone]
      simp [List.find?_cons, hwk]
    · rw [List.reverse_cons, List.find?_append, ih hnd.2]
      simp [List.find?_cons, hwk]

theorem mem_jsSetDedup_go (l : List Nat) :
    ∀ (acc : List Nat) (a : Nat),
      (a ∈ l.foldl (fun acc x => if x ∈ acc then acc else acc ++ [x]) acc) ↔
        a ∈ acc ∨ a ∈ l := by
  induction l with
  | nil => simp
  | cons x xs ih =>
    intro acc a
    rw [List.foldl_cons, ih]
    by_cases hx : x ∈ acc
    · simp only [if_pos hx, List.mem_cons]
      constructor
      · rintro (h | h) <;> tauto
      · rintro (h | h | h)
        · tauto
        · subst h; tauto
        · tauto
    · simp only [if_neg hx, List.mem_append, List.mem_singleton, List.mem_cons]
      tauto

theorem mem_jsSetDedup (l : List Nat) (a : Nat) : a ∈ jsSetDedup l ↔ a ∈ l := by
  unfold jsSetDedup
  rw [mem_jsSetDedup_go]
  simp

theorem jsSetDedup_ne_nil (l : List Nat) (h : l ≠ []) : jsSetDedup l ≠ [] := by
  cases l with
  | nil => exact absurd rfl h
  | cons x xs =>
    intro hnil
    have : x ∈ jsSetDedup (x :: xs) := (mem_jsSetDedup _ x).2 (List.mem_cons_self x xs)
    rw [hnil] at this
    exact List.not_mem_nil x this

/-- Deleting a batch of keys from a `JsMap` filters their entries out. -/
theorem foldl_delete_entries (l : List Exercise) (m : JsMap Exercise) :
    (l.foldl (fun acc e => (acc.delete e.id).1) m).entries =
      m.entries.filter (fun p => l.all (fun e => p.1 ≠ e.id)) := by
  induction l generalizing m with
  | nil => simp
  | cons x xs ih =>
    rw [List.foldl_cons, ih]
    show (m.entries.filter (fun p => p.1 ≠ x.id)).filter _ = _
    rw [List.filter_filter]
    apply List.filter_congr
    intro p _
    simp [List.all_cons, Bool.and_comm]

theorem JsMap.isSome_get (m : JsMap α) (k : Nat) :
    (m.get k).isSome = m.entries.any (fun p => p.1 = k) := by
  show ((m.entries.find? (fun p => p.1 = k)).map (·.2)).isSome = _
  induction m.entries with
  | nil => rfl
  | cons p ps ih =>
    rw [List.find?_cons, List.any_cons]
    cases hpk : (decide (p.1 = k)) <;> simp_all

/-- Setting a key to the value it already has leaves the map unchanged
(keys are pairwise distinct in every reachable `JsMap`). -/
theorem JsMap.set_same (m : JsMap α) (k : Nat) (v : α)
    (hnd : (m.entries.map Prod.fst).Nodup) (hget : m.get k = some v) :
    m.set k v = m := by
  obtain ⟨q, hfind⟩ : ∃ q, m.entries.find? (fun p => p.1 = k) = some q := by
    unfold JsMap.get at hget
    cases hf : m.entries.find? (fun p => p.1 = k) with
    | none => rw [hf] at hget; exact absurd hget (by simp)
    | some q => exact ⟨q, rfl⟩
  have hqmem : q ∈ m.entries := List.mem_of_find?_eq_some hfind
  have hqk : q.1 = k := by
    have h1 := List.find?_some hfind
    simpa using h1
  have hqv : q.2 = v := by
    unfold JsMap.get at hget
    rw [hfind] at hget
    simpa using hget
  have hany : m.entries.any (fun p => p.1 = k) = true := by
    rw [List.any_eq_true]
    exact ⟨q, hqmem, by simp [hqk]⟩
  unfold JsMap.set
  rw [if_pos hany]
  have hmap : m.entries.map (fun p => if p.1 = k then (k, v) else p) = m.entries := by
    have : ∀ p ∈ m.entries, (if p.1 = k then (k, v) else p) = p := by
      intro p hp
      by_cases hpk : p.1 = k
      · rw [if_pos hpk]
        have : p = q :=
          List.inj_on_of_nodup_map hnd hp hqmem (by rw [hpk, hqk])
        rw [this, ← hqk, ← hqv]
      · rw [if_neg hpk]
    calc m.entries.map (fun p => if p.1 = k then (k, v) else p)
        = m.entries.map id := List.map_congr_left (fun p hp => this p hp)
      _ = m.entries := List.map_id _
  cases m
  simp only [JsMap.mk.injEq]
  exact hmap

/-! ## Claim theorems -/

/-- C10: a freshly constructed `MemStorage` is pre-seeded: exactly the three
exercise types "Bench Press", "Squat", "Deadlift" with ids 1, 2, 3, exactly
one goal "Weekly Workouts" with id 1 and `isCompleted = false`, and no
workouts or exercises; reads served by the in-memory store after a fallback
transition therefore see this sample data. -/
theorem memStorage_init_seeded (now : Int) :
    (MemStorage.init now).exerciseTypes.values =
      [{ id := 1, name := "Bench Press", description := some "A classic chest exercise",
         notes := some "Keep shoulders back and down", category := some "Chest",
         created := now },
       { id := 2, name := "Squat", description := some "The king of leg exercises",
         notes := some "Drive through heels", category := some "Legs", created := now },
       { id := 3, name := "Deadlift", description := some "A full-body pull exercise",
         notes := some "Maintain neutral spine", category := some "Back", created := now }]
    ∧ (MemStorage.init now).goals.values =
      [{ id := 1, name := "Weekly Workouts", exerciseName := none, targetWeight := none,
         targetReps := some 5, targetDate := none, isCompleted := false,
         currentProgress := some 2 }]
    ∧ (MemStorage.init now).workouts.entries = []
    ∧ (MemStorage.init now).exercises.entries = [] :=
  ⟨rfl, rfl, rfl, rfl⟩

/-- C2 counterexample: on an empty durable store,
`PostgresStorage.getExerciseHistory` for "Bench Press" does NOT return the
empty sequence — it substitutes synthetic sample points. -/
theorem pg_history_substitutes_sample_data :
    PostgresStorage.getExerciseHistory 0 dbEmpty "Bench Press" ≠ [] := by decide

/-- C2 (amended): for a name with zero matching exercise rows, the
in-memory `getExerciseHistory` returns the empty sequence, while the
durable-store variant substitutes the six-point synthetic sample history. -/
theorem exerciseHistory_empty_on_no_match :
    (∀ (st : MemStorage) (name : String),
      st.exercises.values.filter (fun e => e.name = name) = [] →
      MemStorage.getExerciseHistory st name = [])
    ∧ (∀ (db : PgDB) (today : Int) (name : String),
      db.exercises.filter (fun e => e.name = name) = [] →
      PostgresStorage.getExerciseHistory today db name =
        PostgresStorage.sampleHistory today name) := by
  constructor
  · intro st name h
    unfold MemStorage.getExerciseHistory
    rw [h]
    rfl
  · intro db today name h
    unfold PostgresStorage.getExerciseHistory
    rw [h]
    rfl

/-- Witness for C2's amended theorem at concrete stores. -/
theorem exerciseHistory_empty_on_no_match_witness :
    MemStorage.getExerciseHistory stBench "Squat" = [] ∧
    PostgresStorage.getExerciseHistory 0 dbEmpty "Bench Press" =
      PostgresStorage.sampleHistory 0 "Bench Press" :=
  ⟨exerciseHistory_empty_on_no_match.1 stBench "Squat" (by decide),
   exerciseHistory_empty_on_no_match.2 dbEmpty 0 "Bench Press" (by decide)⟩

/-- In fallback mode the adapter serves everything from the in-memory store
and never attempts the durable store. -/
theorem storageAdapter_run_fallback (fails : List Bool) :
    StorageAdapter.run false fails = fails.map (fun _ => (false, Backend.mem)) := by
  induction fails with
  | nil => rfl
  | cons f rest ih =>
    simp [StorageAdapter.run, StorageAdapter.delegate, ih]

/-- C3: over any sequence of operations (given, for each, whether its
durable-store attempt would fail), operation `i` attempts the durable
store exactly when no earlier operation failed, and is served by the
durable store exactly when no operation up to and including `i` failed —
i.e. the first failure is itself retried against the in-memory store and
every later operation goes only to the in-memory store. -/
theorem storageAdapter_one_way_fallback (fails : List Bool) (i : Nat)
    (h : i < fails.length) :
    (StorageAdapter.run true fails)[i]? =
      some ((fails.take i).all (fun b => !b),
        if (fails.take (i + 1)).all (fun b => !b) = true then Backend.pg
        else Backend.mem) := by
  induction fails generalizing i with
  | nil => exact absurd h (by simp)
  | cons f rest ih =>
    cases i with
    | zero =>
      cases f <;>
        simp [StorageAdapter.run, StorageAdapter.delegate]
    | succ j =>
      have hj : j < rest.length := by simpa using h
      cases f with
      | true =>
        simp [StorageAdapter.run, StorageAdapter.delegate,
          storageAdapter_run_fallback, List.getElem?_map,
          List.getElem?_eq_getElem hj, List.getElem?_replicate, hj]
      | false =>
        simpa [StorageAdapter.run, StorageAdapter.delegate] using ih j hj

/-- Witness for C3 at a concrete failure pattern (the second operation
fails; the third neither attempts nor is served by the durable store). -/
theorem storageAdapter_one_way_fallback_witness :
    (StorageAdapter.run true [false, true, false])[2]? =
      some (false, Backend.mem) :=
  (storageAdapter_one_way_fallback [false, true, false] 2 (by decide)).trans (by decide)

/-- C9 counterexample: with `limit = 0` the source's `history.slice(-limit)`
is `slice(0)` — the whole history, not the empty sequence the claim
demands. -/
theorem getExerciseSets_zero_not_empty :
    MemStorage.getExerciseSets stBench "Bench Press" 0 ≠ [] := by decide

/-- C9 (amended): for `limit ≥ 1` both implementations of
`getExerciseSets` return the last `min limit length` entries of the
exercise history; for `limit = 0` they return the whole history (JavaScript
`slice(-0)` is `slice(0)`). -/
theorem getExerciseSets_lastN :
    (∀ (st : MemStorage) (name : String) (limit : Nat), limit ≠ 0 →
      MemStorage.getExerciseSets st name limit =
        specLastN limit (MemStorage.getExerciseHistory st name))
    ∧ (∀ (st : MemStorage) (name : String),
      MemStorage.getExerciseSets st name 0 = MemStorage.getExerciseHistory st name)
    ∧ (∀ (db : PgDB) (today : Int) (name : String) (limit : Nat), limit ≠ 0 →
      PostgresStorage.getExerciseSets today db name limit =
        specLastN limit (PostgresStorage.getExerciseHistory today db name))
    ∧ (∀ (db : PgDB) (today : Int) (name : String),
      PostgresStorage.getExerciseSets today db name 0 =
        PostgresStorage.getExerciseHistory today db name) := by
  refine ⟨?_, ?_, ?_, ?_⟩ <;> intros <;>
    simp [MemStorage.getExerciseSets, PostgresStorage.getExerciseSets,
      jsSliceNeg, specLastN, *]

/-- Witness for C9's amended theorem at `limit = 1`. -/
theorem getExerciseSets_lastN_witness :
    MemStorage.getExerciseSets stBench "Bench Press" 1 =
      specLastN 1 (MemStorage.getExerciseHistory stBench "Bench Press") ∧
    PostgresStorage.getExerciseSets 0 dbOneBench "Bench Press" 1 =
      specLastN 1 (PostgresStorage.getExerciseHistory 0 dbOneBench "Bench Press") :=
  ⟨getExerciseSets_lastN.1 stBench "Bench Press" 1 (by decide),
   getExerciseSets_lastN.2.2.1 dbOneBench 0 "Bench Press" 1 (by decide)⟩

/-- `specHeaviestSet` is `none` exactly on the empty set list. -/
theorem specHeaviestSet_eq_none_iff (sets : List SetEntry) :
    specHeaviestSet sets = none ↔ sets = [] := by
  cases sets with
  | nil => simp [specHeaviestSet, firstMaxByKey]
  | cons s ss =>
    simp only [specHeaviestSet, firstMaxByKey]
    cases firstMaxByKey (fun s => some s.weight) ss <;> simp
    split <;> simp

/-- C1 counterexample: on a durable store whose only exercise row is named
"Bench Press", querying "Squat" (zero matching rows) returns six synthetic
points instead of one point per matching row. -/
theorem pg_history_not_per_row :
    PostgresStorage.getExerciseHistory 0 dbOneBench "Squat" ≠
      specExerciseHistoryPg dbOneBench "Squat" := by decide

/-- C1 (amended): `getExerciseHistory` emits exactly one `{date, weight,
reps}` point per exercise row matching the name exactly, whose owning
workout exists and whose set list is non-empty — the point being the
owning workout's date with the first maximum-weight set — sorted ascending
by date; unconditionally for the in-memory store, and for the durable store
provided at least one exercise row matches the name (with zero matching
rows it substitutes synthetic sample data). -/
theorem exerciseHistory_refines_spec :
    (∀ (st : MemStorage) (name : String),
      MemStorage.getExerciseHistory st name = specExerciseHistoryMem st name)
    ∧ (∀ (db : PgDB) (today : Int) (name : String),
      db.exercises.filter (fun e => e.name = name) ≠ [] →
      (db.workouts.map (fun w => w.id)).Nodup →
      PostgresStorage.getExerciseHistory today db name =
        specExerciseHistoryPg db name) := by
  constructor
  · intro st name
    simp only [MemStorage.getExerciseHistory, specExerciseHistoryMem]
    congr 1
    rw [List.filterMap_eq_flatMap_toList]
    apply flatMap_congr_mem
    intro e _
    rw [heaviestSet_eq_spec]
    cases hw : st.workouts.get e.workoutId <;>
      cases hs : specHeaviestSet e.sets <;> simp
  · intro db today name hne hnd
    simp only [PostgresStorage.getExerciseHistory, specExerciseHistoryPg]
    have hids : jsSetDedup ((db.exercises.filter (fun e => e.name = name)).map
        (fun e => e.workoutId)) ≠ [] :=
      jsSetDedup_ne_nil _ (by simpa using hne)
    rw [if_neg (by simpa using hids)]
    congr 1
    rw [List.filterMap_eq_flatMap_toList]
    apply flatMap_congr_mem
    intro e he
    have hewid : e.workoutId ∈ jsSetDedup ((db.exercises.filter
        (fun e => e.name = name)).map (fun e => e.workoutId)) :=
      (mem_jsSetDedup _ _).2 (List.mem_map_of_mem _ he)
    have hnd2 : (((db.workouts.filter (fun w => w.id ∈ jsSetDedup
        ((db.exercises.filter (fun e => e.name = name)).map
          (fun e => e.workoutId)))).map (fun w => w.id))).Nodup :=
      hnd.sublist ((List.filter_sublist _).map _)
    have hlook : rowMapGet (db.workouts.filter (fun w => w.id ∈ jsSetDedup
        ((db.exercises.filter (fun e => e.name = name)).map
          (fun e => e.workoutId)))) e.workoutId =
        db.workouts.find? (fun w => w.id = e.workoutId) := by
      unfold rowMapGet
      rw [reverse_find?_of_nodup _ hnd2]
      apply find?_filter_of_imp
      intro w hw
      have hwid : w.id = e.workoutId := of_decide_eq_true hw
      exact decide_eq_true (hwid ▸ hewid)
    rw [hlook]
    cases hw : db.workouts.find? (fun w => w.id = e.workoutId) with
    | none => simp
    | some w =>
      rw [heaviestSet_eq_spec]
      cases hsets : e.sets with
      | nil => simp [specHeaviestSet, firstMaxByKey]
      | cons s ss =>
        cases hs : specHeaviestSet (s :: ss) <;> simp [hs]

/-- Witness for C1's amended theorem: the spec §8 example store in memory,
and a durable store with one matching row. -/
theorem exerciseHistory_refines_spec_witness :
    MemStorage.getExerciseHistory stBench "Bench Press" =
      specExerciseHistoryMem stBench "Bench Press" ∧
    PostgresStorage.getExerciseHistory 0 dbOneBench "Bench Press" =
      specExerciseHistoryPg dbOneBench "Bench Press" :=
  ⟨exerciseHistory_refines_spec.1 stBench "Bench Press",
   exerciseHistory_refines_spec.2 dbOneBench 0 "Bench Press" (by decide) (by decide)⟩

/-- C4 counterexample: with the newest exercise row (highest id) attached to
an older-dated workout, the durable store returns that row's set — not the
set of the exercise whose owning workout is most recent, as the claim
states. -/
theorem pg_latest_ignores_workout_date :
    PostgresStorage.getLatestExerciseSet dbLatest "Bench Press" ≠
      specLatestByDatePg dbLatest "Bench Press" := by decide

/-- C4 (amended): the in-memory `getLatestExerciseSet` returns the first
maximum-weight set of the matching exercise (with existing owning workout)
whose workout date is most recent, `none` when nothing qualifies or the
chosen set list is empty; the durable-store variant instead selects the
matching exercise row with the greatest id ("assumes newer exercises have
higher IDs") without consulting workout dates. -/
theorem latestExerciseSet_refines :
    (∀ (st : MemStorage) (name : String),
      MemStorage.getLatestExerciseSet st name = specLatestMem st name)
    ∧ (∀ (db : PgDB) (name : String),
      PostgresStorage.getLatestExerciseSet db name = specLatestByIdPg db name) := by
  constructor
  · intro st name
    simp only [MemStorage.getLatestExerciseSet, specLatestMem]
    by_cases hemp : (st.exercises.values.filter (fun e => e.name = name)).isEmpty
    · rw [if_pos hemp]
      have h0 : st.exercises.values.filter (fun e => e.name = name) = [] := by
        simpa using hemp
      rw [h0]
      simp [firstMaxByKey]
    · rw [if_neg hemp]
      have hkey : ∀ e ∈ (st.exercises.values.filter (fun e => e.name = name)).filter
          (fun e => (st.workouts.get e.workoutId).isSome),
          ((fun e => (st.workouts.get e.workoutId).map (fun w => w.date)) e).isSome := by
        intro e hee
        have h1 := (List.mem_filter.1 hee).2
        simpa using h1
      rw [head?_insertionSort_byKeyDesc _ _ hkey]
      simp only [heaviestSet_eq_spec]
      cases hfm : firstMaxByKey (fun e => (st.workouts.get e.workoutId).map
          (fun w => w.date))
          ((st.exercises.values.filter (fun e => e.name = name)).filter
            (fun e => (st.workouts.get e.workoutId).isSome)) with
      | none => simp
      | some latest =>
        cases hs : specHeaviestSet latest.sets <;> simp [hs]
  · intro db name
    simp only [PostgresStorage.getLatestExerciseSet, specLatestByIdPg]
    rw [head?_insertionSort_byKeyDesc (fun (e : Exercise) => some ((e.id : Int))) _
      (fun e _ => rfl)]
    simp only [heaviestSet_eq_spec]
    cases hfm : firstMaxByKey (fun e => some ((e.id : Int)))
        (db.exercises.filter (fun e => e.name = name)) with
    | none => simp
    | some e =>
      cases hs : specHeaviestSet e.sets <;> simp [hs]

/-- C5 counterexample: an update that provides the new (different) name `""`
renames the exercise type but — because `""` is falsy in the source's guard
— does not propagate the rename to the exercise equal to the old name. -/
theorem rename_skipped_for_empty_name :
    (stRename.updateExerciseType 1
      { name := some "", description := none, notes := none, category := none }).2 =
        some { id := 1, name := "", description := none, notes := none,
               category := none, created := 0 } ∧
    (stRename.updateExerciseType 1
      { name := some "", description := none, notes := none,
        category := none }).1.exercises.values.map (fun e => e.name) =
      ["Bench Press"] := by decide

/-- C5 (amended): for an exercise-type rename with a non-empty new name
different from the old one, every exercise whose name equals the old name
exactly and every goal whose `exerciseName` equals the old name exactly is
updated to the new name, and every other exercise and goal (in particular
those merely containing the old name as a substring) is left unchanged —
in both store implementations. -/
theorem updateExerciseType_renames_exact :
    (∀ (st : MemStorage) (tid : Nat) (old : ExerciseType)
        (patch : ExerciseTypePatch) (n : String),
      st.exerciseTypes.get tid = some old →
      patch.name = some n → n ≠ "" → n ≠ old.name →
      ((st.updateExerciseType tid patch).1.exercises.entries =
        st.exercises.entries.map (fun p =>
          if p.2.name = old.name then (p.1, { p.2 with name := n }) else p)
      ∧ (st.updateExerciseType tid patch).1.goals.entries =
        st.goals.entries.map (fun p =>
          if p.2.exerciseName = some old.name then
            (p.1, { p.2 with exerciseName := some n }) else p)
      ∧ (st.updateExerciseType tid patch).1.workouts = st.workouts))
    ∧ (∀ (db : PgDB) (tid : Nat) (old : ExerciseType)
        (patch : ExerciseTypePatch) (n : String),
      db.exerciseTypes.find? (fun t => t.id = tid) = some old →
      patch.name = some n → n ≠ "" → n ≠ old.name →
      ((PostgresStorage.updateExerciseType db tid patch).1.exercises =
        db.exercises.map (fun e =>
          if e.name = old.name then { e with name := n } else e)
      ∧ (PostgresStorage.updateExerciseType db tid patch).1.goals =
        db.goals.map (fun g =>
          if g.exerciseName = some old.name then
            { g with exerciseName := some n } else g)
      ∧ (PostgresStorage.updateExerciseType db tid patch).1.workouts =
        db.workouts)) := by
  constructor
  · intro st tid old patch n hget hpn hne hdiff
    simp only [MemStorage.updateExerciseType, hget, hpn, MemStorage.renameFixup]
    rw [if_neg hne, if_neg hdiff]
    exact ⟨rfl, rfl, rfl⟩
  · intro db tid old patch n hfind hpn hne hdiff
    simp only [PostgresStorage.updateExerciseType, hfind, hpn]
    rw [if_neg hne, if_neg hdiff]
    exact ⟨rfl, rfl, rfl⟩

/-- Witness for C5's amended theorem: renaming "Bench Press" to "Barbell
Bench Press" propagates to the matching exercise and goal in both stores. -/
theorem updateExerciseType_renames_exact_witness :
    (stRename.updateExerciseType 1
      { name := some "Barbell Bench Press", description := none,
        notes := none, category := none }).1.exercises.entries =
      [(1, { id := 1, workoutId := 1, name := "Barbell Bench Press",
             sets := [{ weight := 100, reps := 5 }] })] ∧
    (PostgresStorage.updateExerciseType dbRename 1
      { name := some "Barbell Bench Press", description := none,
        notes := none, category := none }).1.goals =
      [{ id := 1, name := "G", exerciseName := some "Barbell Bench Press",
         targetWeight := none, targetReps := none, targetDate := none,
         isCompleted := false, currentProgress := none }] :=
  ⟨((updateExerciseType_renames_exact.1 stRename 1
      { id := 1, name := "Bench Press", description := none, notes := none,
        category := none, created := 0 }
      { name := some "Barbell Bench Press", description := none,
        notes := none, category := none }
      "Barbell Bench Press" (by decide) rfl (by decide) (by decide)).1).trans
    (by decide),
   ((updateExerciseType_renames_exact.2 dbRename 1
      { id := 1, name := "Bench Press", description := none, notes := none,
        category := none, created := 0 }
      { name := some "Barbell Bench Press", description := none,
        notes := none, category := none }
      "Barbell Bench Press" (by decide) rfl (by decide) (by decide)).2.1).trans
    (by decide)⟩

/-- C6: `deleteWorkout id` removes the workout, returning whether it
existed, and removes exactly the exercises whose `workoutId` equals `id`
(so `getExercises id` is empty afterwards); goals and exercise types are
untouched. The two in-memory hypotheses are the `JsMap` representation
invariants maintained by the store (pairwise-distinct keys; each entry
keyed by its row's id), automatic for a real JavaScript `Map`. -/
theorem deleteWorkout_cascades :
    (∀ (st : MemStorage) (id : Nat),
      (st.exercises.entries.map Prod.fst).Nodup →
      (∀ p ∈ st.exercises.entries, p.2.id = p.1) →
      ((st.deleteWorkout id).2 = (st.workouts.get id).isSome
      ∧ (st.deleteWorkout id).1.workouts.entries =
          st.workouts.entries.filter (fun p => p.1 ≠ id)
      ∧ (st.deleteWorkout id).1.exercises.entries =
          st.exercises.entries.filter (fun p => p.2.workoutId ≠ id)
      ∧ MemStorage.getExercises (st.deleteWorkout id).1 id = []
      ∧ (st.deleteWorkout id).1.goals = st.goals
      ∧ (st.deleteWorkout id).1.exerciseTypes = st.exerciseTypes))
    ∧ (∀ (db : PgDB) (id : Nat),
      ((PostgresStorage.deleteWorkout db id).2 = db.workouts.any (fun w => w.id = id)
      ∧ (PostgresStorage.deleteWorkout db id).1.workouts =
          db.workouts.filter (fun w => w.id ≠ id)
      ∧ (PostgresStorage.deleteWorkout db id).1.exercises =
          db.exercises.filter (fun e => e.workoutId ≠ id)
      ∧ PostgresStorage.getExercises (PostgresStorage.deleteWorkout db id).1 id = []
      ∧ (PostgresStorage.deleteWorkout db id).1.goals = db.goals
      ∧ (PostgresStorage.deleteWorkout db id).1.exerciseTypes = db.exerciseTypes)) := by
  constructor
  · intro st id hnd hkeys
    have hex : (st.deleteWorkout id).1.exercises.entries =
        st.exercises.entries.filter (fun p => p.2.workoutId ≠ id) := by
      show ((st.exercises.values.filter (fun e => e.workoutId = id)).foldl
        (fun m e => (m.delete e.id).1) st.exercises).entries = _
      rw [foldl_delete_entries]
      apply List.filter_congr
      intro p hp
      by_cases hpw : p.2.workoutId = id
      · have hRHS : (decide (p.2.workoutId ≠ id)) = false := by simp [hpw]
        rw [hRHS, List.all_eq_false]
        refine ⟨p.2, List.mem_filter.2 ⟨List.mem_map_of_mem _ hp, by simp [hpw]⟩, ?_⟩
        simp [hkeys p hp]
      · have hRHS : (decide (p.2.workoutId ≠ id)) = true := by simp [hpw]
        rw [hRHS, List.all_eq_true]
        intro e hemem
        have he1 := List.mem_filter.1 hemem
        obtain ⟨q, hq, hq2⟩ := List.mem_map.1 he1.1
        have heid : e.id = q.1 := by rw [← hq2]; exact hkeys q hq
        have hew : e.workoutId = id := of_decide_eq_true he1.2
        simp only [ne_eq, decide_eq_true_eq]
        intro hpe
        apply hpw
        have hpq : p = q := List.inj_on_of_nodup_map hnd hp hq (by omega)
        rw [hpq, hq2]
        exact hew
    refine ⟨(JsMap.isSome_get st.workouts id).symm, rfl, hex, ?_, rfl, rfl⟩
    show ((st.deleteWorkout id).1.exercises.entries.map Prod.snd).filter
      (fun e => e.workoutId = id) = []
    rw [hex]
    rw [List.eq_nil_iff_forall_not_mem]
    intro e he
    have h1 := List.mem_filter.1 he
    obtain ⟨p, hp, hp2⟩ := List.mem_map.1 h1.1
    have h2 := (List.mem_filter.1 hp).2
    rw [hp2] at h2
    have h3 := of_decide_eq_true h1.2
    simp [h3] at h2
  · intro db id
    refine ⟨rfl, rfl, rfl, ?_, rfl, rfl⟩
    show (db.exercises.filter (fun e => e.workoutId ≠ id)).filter
      (fun e => e.workoutId = id) = []
    rw [List.filter_filter, List.eq_nil_iff_forall_not_mem]
    intro e he
    have h1 := (List.mem_filter.1 he).2
    simp at h1

/-- Witness for C6's in-memory conjunct at a concrete store. -/
theorem deleteWorkout_cascades_witness :
    ((stBench.deleteWorkout 1).2 = (stBench.workouts.get 1).isSome
    ∧ (stBench.deleteWorkout 1).1.workouts.entries =
        stBench.workouts.entries.filter (fun p => p.1 ≠ 1)
    ∧ (stBench.deleteWorkout 1).1.exercises.entries =
        stBench.exercises.entries.filter (fun p => p.2.workoutId ≠ 1)
    ∧ MemStorage.getExercises (stBench.deleteWorkout 1).1 1 = []
    ∧ (stBench.deleteWorkout 1).1.goals = stBench.goals
    ∧ (stBench.deleteWorkout 1).1.exerciseTypes = stBench.exerciseTypes) :=
  deleteWorkout_cascades.1 stBench 1 (by decide) (by decide)

theorem filter_head?_eq_find? (l : List α) (p : α → Bool) :
    (l.filter p).head? = l.find? p := by
  induction l with
  | nil => rfl
  | cons x xs ih =>
    rw [List.filter_cons, List.find?_cons]
    cases hp : p x <;> simp [ih]

/-- The source's `||`-chain for the merged name equals the spec's name
rule. -/
theorem jsOrStr_eq_specMergedName (pn : Option String) (prev : String) :
    jsOrStr pn (jsOrStr (some prev) "Unnamed Workout") =
      specMergedName pn prev := by
  cases pn with
  | none => simp [jsOrStr, specMergedName]
  | some n =>
    by_cases hn : n = "" <;> simp [jsOrStr, specMergedName, hn]

/-- The spec's merged name is never the empty string. -/
theorem specMergedName_ne_empty (pn : Option String) (prev : String) :
    specMergedName pn prev ≠ "" := by
  cases pn with
  | none =>
    simp only [specMergedName]
    split <;> first | decide | assumption
  | some n =>
    simp only [specMergedName]
    split
    · split <;> first | decide | assumption
    · assumption

/-- Searching by id commutes with mapping an id-preserving function. -/
theorem find?_map_of_id_preserved (l : List Workout) (f : Workout → Workout)
    (hf : ∀ x, (f x).id = x.id) (k : Nat) :
    (l.map f).find? (fun x => x.id = k) =
      (l.find? (fun x => x.id = k)).map f := by
  induction l with
  | nil => rfl
  | cons x xs ih =>
    rw [List.map_cons, List.find?_cons, List.find?_cons]
    have hdx : (decide ((f x).id = k)) = (decide (x.id = k)) := by rw [hf]
    rw [hdx]
    cases hx : decide (x.id = k) <;> simp [ih]

/-- C7 counterexample: `PostgresStorage.updateWorkout` with the patch
`{name: ""}` stores the empty name — the workout's name does become
empty. -/
theorem pg_update_stores_empty_name :
    (PostgresStorage.updateWorkout dbLegDay 1
      { name := some "", date := none, duration := none, notes := none }).1.workouts =
      [{ id := 1, name := "", date := 5, duration := none, notes := none }] := by
  decide

/-- C7 (amended): for every existing workout and every partial,
`updateWorkout` is a shallow merge: every provided field replaces the
stored value and every absent field is preserved. In the in-memory store
the merged name follows the fallback rule (patched name when provided and
non-empty, else the previous name, else "Unnamed Workout") and therefore
never becomes empty; in particular, with a non-empty previous name both
`update(id, {})` and `update(id, {name: ""})` leave the workout unchanged.
In the durable store `update(id, {})` leaves the workout unchanged (an
absent name is re-written from the existing row), but a provided name —
even the empty string — is stored verbatim, so the name can become empty.
Uniqueness hypotheses are the stores' key invariants. -/
theorem updateWorkout_merge :
    (∀ (st : MemStorage) (id : Nat) (w : Workout) (patch : WorkoutPatch),
      st.workouts.get id = some w →
      MemStorage.updateWorkout st id patch =
        ({ st with workouts := st.workouts.set id (specMergeWorkoutMem patch w) },
         some (specMergeWorkoutMem patch w)))
    ∧ (∀ (patchName : Option String) (prevName : String),
      specMergedName patchName prevName ≠ "")
    ∧ (∀ (st : MemStorage) (id : Nat) (w : Workout),
      (st.workouts.entries.map Prod.fst).Nodup →
      st.workouts.get id = some w → w.name ≠ "" →
      MemStorage.updateWorkout st id WorkoutPatch.empty = (st, some w))
    ∧ (∀ (st : MemStorage) (id : Nat) (w : Workout),
      (st.workouts.entries.map Prod.fst).Nodup →
      st.workouts.get id = some w → w.name ≠ "" →
      MemStorage.updateWorkout st id
        { name := some "", date := none, duration := none, notes := none } =
        (st, some w))
    ∧ (∀ (db : PgDB) (id : Nat) (w : Workout) (patch : WorkoutPatch),
      PostgresStorage.getWorkout db id = some w →
      ((PostgresStorage.updateWorkout db id patch).2 =
        some (specMergeWorkoutPg patch w)
      ∧ (PostgresStorage.updateWorkout db id patch).1.workouts.find?
          (fun x => x.id = id) = some (specMergeWorkoutPg patch w)))
    ∧ (∀ (db : PgDB) (id : Nat) (w : Workout),
      (db.workouts.map (fun w => w.id)).Nodup →
      PostgresStorage.getWorkout db id = some w →
      PostgresStorage.updateWorkout db id WorkoutPatch.empty = (db, some w))
    ∧ (∀ (db : PgDB) (id : Nat) (w : Workout),
      PostgresStorage.getWorkout db id = some w →
      (PostgresStorage.updateWorkout db id
        { name := some "", date := none, duration := none, notes := none }).2 =
        some { w with name := "" }) := by
  refine ⟨?_, specMergedName_ne_empty, ?_, ?_, ?_, ?_, ?_⟩
  · intro st id w patch hget
    have hu : ({ id := w.id,
                 name := jsOrStr patch.name (jsOrStr (some w.name) "Unnamed Workout"),
                 date := patch.date.getD w.date,
                 duration := patch.duration.getD w.duration,
                 notes := patch.notes.getD w.notes } : Workout) =
        specMergeWorkoutMem patch w := by
      simp [specMergeWorkoutMem, jsOrStr_eq_specMergedName]
    simp only [MemStorage.updateWorkout, hget, hu]
  · intro st id w hnd hget hname
    obtain ⟨wid, wname, wdate, wdur, wnotes⟩ := w
    have hname2 : wname ≠ "" := by simpa using hname
    have hmerge : jsOrStr none (jsOrStr (some wname) "Unnamed Workout") = wname := by
      simp [jsOrStr, hname2]
    simp only [MemStorage.updateWorkout, WorkoutPatch.empty, hget,
      Option.getD_none, hmerge]
    rw [JsMap.set_same st.workouts id _ hnd hget]
  · intro st id w hnd hget hname
    obtain ⟨wid, wname, wdate, wdur, wnotes⟩ := w
    have hname2 : wname ≠ "" := by simpa using hname
    have hmerge : jsOrStr (some "") (jsOrStr (some wname) "Unnamed Workout") = wname := by
      simp [jsOrStr, hname2]
    simp only [MemStorage.updateWorkout, hget, Option.getD_none, hmerge]
    rw [JsMap.set_same st.workouts id _ hnd hget]
  · intro db id w patch hfind
    have hfind2 : db.workouts.find? (fun x => x.id = id) = some w := hfind
    have hwid : w.id = id := by
      have h1 := List.find?_some hfind2
      simpa using h1
    cases hpn : patch.name with
    | none =>
      constructor
      · simp only [PostgresStorage.updateWorkout, hpn, PostgresStorage.getWorkout,
          hfind2]
        rw [List.head?_map, filter_head?_eq_find?, hfind2]
        simp [PostgresStorage.mergeWorkout, specMergeWorkoutPg, hpn]
      · simp only [PostgresStorage.updateWorkout, hpn, PostgresStorage.getWorkout,
          hfind2]
        rw [find?_map_of_id_preserved _ _ (fun x => by
          by_cases hx : x.id = id <;> simp [hx, PostgresStorage.mergeWorkout]) id,
          hfind2]
        simp [hwid, PostgresStorage.mergeWorkout, specMergeWorkoutPg, hpn]
    | some n =>
      constructor
      · simp only [PostgresStorage.updateWorkout, hpn]
        rw [List.head?_map, filter_head?_eq_find?, hfind2]
        simp [PostgresStorage.mergeWorkout, specMergeWorkoutPg, hpn]
      · simp only [PostgresStorage.updateWorkout, hpn]
        rw [find?_map_of_id_preserved _ _ (fun x => by
          by_cases hx : x.id = id <;> simp [hx, PostgresStorage.mergeWorkout]) id,
          hfind2]
        simp [hwid, PostgresStorage.mergeWorkout, specMergeWorkoutPg, hpn]
  · intro db id w hnd hfind
    have hfind2 : db.workouts.find? (fun w => w.id = id) = some w := hfind
    have hwid : w.id = id := by
      have h1 := List.find?_some hfind2
      simpa using h1
    have hwmem : w ∈ db.workouts := List.mem_of_find?_eq_some hfind2
    simp only [PostgresStorage.updateWorkout, PostgresStorage.getWorkout,
      WorkoutPatch.empty, hfind2]
    rw [Prod.mk.injEq]
    constructor
    · have hmap : db.workouts.map (fun x =>
          if x.id = id then
            PostgresStorage.mergeWorkout
              { name := some w.name, date := none, duration := none, notes := none } x
          else x) = db.workouts := by
        have hpt : ∀ x ∈ db.workouts, (if x.id = id then
            PostgresStorage.mergeWorkout
              { name := some w.name, date := none, duration := none, notes := none } x
            else x) = x := by
          intro x hx
          by_cases hxid : x.id = id
          · have hxw : x = w :=
              List.inj_on_of_nodup_map hnd hx hwmem (by omega)
            subst hxw
            rw [if_pos hxid]
            simp [PostgresStorage.mergeWorkout]
          · rw [if_neg hxid]
        calc db.workouts.map _ = db.workouts.map (fun x => x) :=
              List.map_congr_left (fun x hx => hpt x hx)
          _ = db.workouts := by simp
      rw [hmap]
    · rw [List.head?_map, filter_head?_eq_find?, hfind2]
      simp [PostgresStorage.mergeWorkout]
  · intro db id w hfind
    have hfind2 : db.workouts.find? (fun w => w.id = id) = some w := hfind
    simp only [PostgresStorage.updateWorkout]
    rw [List.head?_map, filter_head?_eq_find?, hfind2]
    simp [PostgresStorage.mergeWorkout]

/-- Witness for C7's amended theorem: a general date-only patch through
both stores, plus the empty and empty-name point patches. -/
theorem updateWorkout_merge_witness :
    MemStorage.updateWorkout stBench 1
      { name := none, date := some 7, duration := none, notes := none } =
      ({ stBench with
           workouts := stBench.workouts.set 1
                         (specMergeWorkoutMem
                           { name := none, date := some 7, duration := none,
                             notes := none }
                           { id := 1, name := "W1", date := 1, duration := none,
                             notes := none }) },
       some (specMergeWorkoutMem
         { name := none, date := some 7, duration := none, notes := none }
         { id := 1, name := "W1", date := 1, duration := none, notes := none })) ∧
    MemStorage.updateWorkout stBench 1 WorkoutPatch.empty =
      (stBench, some { id := 1, name := "W1", date := 1, duration := none,
                       notes := none }) ∧
    MemStorage.updateWorkout stBench 1
      { name := some "", date := none, duration := none, notes := none } =
      (stBench, some { id := 1, name := "W1", date := 1, duration := none,
                       notes := none }) ∧
    ((PostgresStorage.updateWorkout dbLegDay 1
        { name := some "Leg Day B", date := some 9, duration := none, notes := none }).2 =
      some (specMergeWorkoutPg
        { name := some "Leg Day B", date := some 9, duration := none, notes := none }
        { id := 1, name := "Leg Day", date := 5, duration := none, notes := none })
    ∧ (PostgresStorage.updateWorkout dbLegDay 1
        { name := some "Leg Day B", date := some 9, duration := none, notes := none
        }).1.workouts.find? (fun x => x.id = 1) =
      some (specMergeWorkoutPg
        { name := some "Leg Day B", date := some 9, duration := none, notes := none }
        { id := 1, name := "Leg Day", date := 5, duration := none, notes := none })) ∧
    PostgresStorage.updateWorkout dbLegDay 1 WorkoutPatch.empty =
      (dbLegDay, some { id := 1, name := "Leg Day", date := 5, duration := none,
                        notes := none }) ∧
    (PostgresStorage.updateWorkout dbLegDay 1
      { name := some "", date := none, duration := none, notes := none }).2 =
      some { id := 1, name := "", date := 5, duration := none, notes := none } :=
  ⟨updateWorkout_merge.1 stBench 1
     { id := 1, name := "W1", date := 1, duration := none, notes := none }
     { name := none, date := some 7, duration := none, notes := none } (by decide),
   updateWorkout_merge.2.2.1 stBench 1 _ (by decide) (by decide) (by decide),
   updateWorkout_merge.2.2.2.1 stBench 1 _ (by decide) (by decide) (by decide),
   updateWorkout_merge.2.2.2.2.1 dbLegDay 1
     { id := 1, name := "Leg Day", date := 5, duration := none, notes := none }
     { name := some "Leg Day B", date := some 9, duration := none, notes := none }
     (by decide),
   updateWorkout_merge.2.2.2.2.2.1 dbLegDay 1 _ (by decide) (by decide),
   updateWorkout_merge.2.2.2.2.2.2 dbLegDay 1
     { id := 1, name := "Leg Day", date := 5, duration := none, notes := none }
     (by decide)⟩

/-- No operation ever decreases an id counter. -/
theorem counterOf_le_applyOp (st : MemStorage) (op : MemOp) (k : EntKind) :
    st.counterOf k ≤ (st.applyOp op).1.counterOf k := by
  cases op <;> cases k <;>
    simp only [MemStorage.applyOp, MemStorage.counterOf,
      MemStorage.createWorkout, MemStorage.deleteWorkout,
      MemStorage.createExercise, MemStorage.deleteExercise,
      MemStorage.createGoal, MemStorage.deleteGoal,
      MemStorage.createExerciseType, MemStorage.deleteExerciseType,
      MemStorage.createWorkoutRoutine, MemStorage.deleteWorkoutRoutine,
      MemStorage.createRoutineExercise, MemStorage.deleteRoutineExercise] <;>
    omega

/-- A create returns the current counter of its entity type and bumps it. -/
theorem applyOp_create_id (st : MemStorage) (op : MemOp) (a : Nat)
    (h : (st.applyOp op).2 = some a) :
    a = st.counterOf op.kind ∧ (st.applyOp op).1.counterOf op.kind = a + 1 := by
  cases op <;>
    simp [MemStorage.applyOp, MemStorage.counterOf,
      MemStorage.createWorkout, MemStorage.deleteWorkout,
      MemStorage.createExercise, MemStorage.deleteExercise,
      MemStorage.createGoal, MemStorage.deleteGoal,
      MemStorage.createExerciseType, MemStorage.deleteExerciseType,
      MemStorage.createWorkoutRoutine, MemStorage.deleteWorkoutRoutine,
      MemStorage.createRoutineExercise, MemStorage.deleteRoutineExercise,
      MemOp.kind] at h ⊢ <;>
    omega

/-- Every id returned later in a trace is at least the current counter. -/
theorem counterOf_le_of_trace (ops : List MemOp) :
    ∀ (st : MemStorage) (j : Nat) (opJ : MemOp) (b : Nat),
      (st.runTrace ops)[j]? = some (opJ, some b) →
      st.counterOf opJ.kind ≤ b := by
  induction ops with
  | nil => intro st j opJ b h; simp [MemStorage.runTrace] at h
  | cons op ops ih =>
    intro st j opJ b h
    cases j with
    | zero =>
      simp only [MemStorage.runTrace, List.getElem?_cons_zero,
        Option.some.injEq, Prod.mk.injEq] at h
      obtain ⟨h1, h2⟩ := h
      rw [← h1]
      exact le_of_eq (applyOp_create_id st op b h2).1.symm
    | succ j' =>
      simp only [MemStorage.runTrace, List.getElem?_cons_succ] at h
      exact le_trans (counterOf_le_applyOp st op opJ.kind) (ih _ j' opJ b h)

/-- C8: across any operation sequence (creates and deletes, any entity
types), ids returned by creates of the same entity type are strictly
increasing — never reused, even after deletions. -/
theorem memStorage_ids_monotonic (ops : List MemOp) :
    ∀ (st : MemStorage) (i j : Nat) (opI opJ : MemOp) (a b : Nat),
      (st.runTrace ops)[i]? = some (opI, some a) →
      (st.runTrace ops)[j]? = some (opJ, some b) →
      opI.kind = opJ.kind → i < j → a < b := by
  induction ops with
  | nil => intro st i j opI opJ a b hi; simp [MemStorage.runTrace] at hi
  | cons op ops ih =>
    intro st i j opI opJ a b hi hj hk hij
    cases i with
    | zero =>
      cases j with
      | zero => omega
      | succ j' =>
        simp only [MemStorage.runTrace, List.getElem?_cons_zero,
          Option.some.injEq, Prod.mk.injEq] at hi
        simp only [MemStorage.runTrace, List.getElem?_cons_succ] at hj
        obtain ⟨h1, h2⟩ := hi
        subst h1
        have hB := applyOp_create_id st op a h2
        have hC := counterOf_le_of_trace ops (st.applyOp op).1 j' opJ b hj
        rw [← hk] at hC
        omega
    | succ i' =>
      cases j with
      | zero => omega
      | succ j' =>
        simp only [MemStorage.runTrace, List.getElem?_cons_succ] at hi hj
        exact ih (st.applyOp op).1 i' j' opI opJ a b hi hj hk (by omega)

/-- Witness for C8: a create, a delete of that entity, then another create
— the second id (2) is strictly greater than the first (1). -/
theorem memStorage_ids_monotonic_witness :
    ((MemStorage.init 0).runTrace
        [MemOp.createWorkout { name := "A", date := 1, duration := none, notes := none },
         MemOp.deleteWorkout 1,
         MemOp.createWorkout { name := "B", date := 2, duration := none, notes := none }])[0]? =
      some (MemOp.createWorkout { name := "A", date := 1, duration := none, notes := none },
        some 1) ∧
    ((MemStorage.init 0).runTrace
        [MemOp.createWorkout { name := "A", date := 1, duration := none, notes := none },
         MemOp.deleteWorkout 1,
         MemOp.createWorkout { name := "B", date := 2, duration := none, notes := none }])[2]? =
      some (MemOp.createWorkout { name := "B", date := 2, duration := none, notes := none },
        some 2) ∧
    (1 : Nat) < 2 :=
  ⟨by decide, by decide,
   memStorage_ids_monotonic
     [MemOp.createWorkout { name := "A", date := 1, duration := none, notes := none },
      MemOp.deleteWorkout 1,
      MemOp.createWorkout { name := "B", date := 2, duration := none, notes := none }]
     (MemStorage.init 0) 0 2
     (MemOp.createWorkout { name := "A", date := 1, duration := none, notes := none })
     (MemOp.createWorkout { name := "B", date := 2, duration := none, notes := none })
     1 2 (by decide) (by decide) rfl (by decide)⟩

end FitnessTracker
